import Mathlib

/-!
Shallow embedding of `rift-engine/rift/lsp/server.py` (class `LspServer`).

The server keeps a store of open text documents (`documents`, a Python dict
keyed by uri, modelled as an association list whose keys stay duplicate-free),
a per-uri set of change callbacks (`change_callbacks`, a
`defaultdict(set)`, modelled as a function into `Finset Nat` where a `Nat`
is a callback identity), and exposes handlers for the LSP notifications
`textDocument/didOpen`, `textDocument/didChange`, `textDocument/didSave`,
`textDocument/didClose`, plus outbound request helpers
`apply_insert_text`, `apply_workspace_edit` and
`get_workspace_configuration`.  Network activity is modelled explicitly:
an outbound helper returns the list of requests it sent over the RPC
channel alongside its result.
-/

namespace Rift

/-- Embeds `lsp.DocumentUri`: a string key treated as an atom. -/
abbrev DocumentUri := String

/-- Embeds `lsp.Position`: a (line, character) pair. -/
structure Position where
  line : Nat
  character : Nat
deriving DecidableEq, Repr

/-- Embeds `lsp.Range`: a pair of positions. The Python field `end` is renamed
`endPos` (`end` is a Lean keyword). -/
structure Range where
  start : Position
  endPos : Position
deriving DecidableEq, Repr

/-- Embeds `lsp.TextDocumentItem`: the record stored per open document
(uri, optional language id, version, full text). -/
structure TextDocumentItem where
  uri : DocumentUri
  languageId : Option String
  version : Int
  text : String
deriving DecidableEq, Repr

/-- Embeds `lsp.TextDocumentIdentifier` as constructed in `server.py`: a uri
together with the version the client declared. -/
structure TextDocumentIdentifier where
  uri : DocumentUri
  version : Int
deriving DecidableEq, Repr

/-- A content change of a `textDocument/didChange` notification.  The
handler in `server.py` only ever calls `change.apply(text)` (the range
arithmetic of `apply` lives in `rift/lsp/types.py`, outside the shown
core), so a change is embedded by its application function on texts. -/
structure TextDocumentContentChangeEvent where
  apply : String → String

/-- Embeds `lsp.DidChangeTextDocumentParams`: the document identity-plus-version
and the ordered list of edits. -/
structure DidChangeTextDocumentParams where
  textDocument : TextDocumentIdentifier
  contentChanges : List TextDocumentContentChangeEvent

/-- Embeds `lsp.DidOpenTextDocumentParams`. -/
structure DidOpenTextDocumentParams where
  textDocument : TextDocumentItem

/-- Embeds `lsp.DidSaveTextDocumentParams`: document identity (and optionally the
full text on save). -/
structure DidSaveTextDocumentParams where
  uri : DocumentUri
  text : Option String

/-- Embeds `lsp.DidCloseTextDocumentParams`: document identity. -/
structure DidCloseTextDocumentParams where
  uri : DocumentUri

/-- Embeds `lsp.TextEdit`: a range and its replacement text. -/
structure TextEdit where
  range : Range
  newText : String
deriving DecidableEq, Repr

/-- Embeds `lsp.TextDocumentEdit`: edits bound to one document snapshot. -/
structure TextDocumentEdit where
  textDocument : TextDocumentIdentifier
  edits : List TextEdit
deriving DecidableEq, Repr

/-- Embeds `lsp.WorkspaceEdit` as built in `server.py` (only `documentChanges`
is ever populated). -/
structure WorkspaceEdit where
  documentChanges : List TextDocumentEdit
deriving DecidableEq, Repr

/-- Embeds `lsp.ApplyWorkspaceEditParams`. -/
structure ApplyWorkspaceEditParams where
  edit : WorkspaceEdit
deriving DecidableEq, Repr

/-- Embeds `lsp.ApplyWorkspaceEditResponse`: whether the editor applied the edit. -/
structure ApplyWorkspaceEditResponse where
  applied : Bool
  failureReason : Option String
deriving DecidableEq, Repr

/-- Embeds `lsp.ConfigurationItem`: one (section, scope) query. -/
structure ConfigurationItem where
  «section» : Option String
  scopeUri : Option DocumentUri
deriving DecidableEq, Repr

/-- Embeds `lsp.ConfigurationParams`: the array of queries sent in a
`workspace/configuration` request. -/
structure ConfigurationParams where
  items : List ConfigurationItem
deriving DecidableEq, Repr

/-- The Python dict `self.documents`, embedded as an association list.
The handlers only ever write through `setDoc`, which keeps keys
duplicate-free (the dict invariant). -/
abbrev DocStore := List (DocumentUri × TextDocumentItem)

/-- Embeds `self.documents.get(uri, None)`. -/
def getDoc : DocStore → DocumentUri → Option TextDocumentItem
  | [], _ => none
  | (u, item) :: rest, uri => if u = uri then some item else getDoc rest uri

/-- Holds iff the store has a record for `uri`. -/
def hasKey (s : DocStore) (uri : DocumentUri) : Bool :=
  s.any fun p => p.1 = uri

/-- Embeds `self.documents[uri] = item`: replace the record if the key is
present, otherwise append it (Python dict assignment keeps the key's
insertion position on overwrite). -/
def setDoc (s : DocStore) (uri : DocumentUri) (item : TextDocumentItem) : DocStore :=
  if hasKey s uri then
    s.map fun p => if p.1 = uri then (uri, item) else p
  else
    s ++ [(uri, item)]

/-- The keys currently in the store. -/
def keys (s : DocStore) : List DocumentUri :=
  s.map Prod.fst

/-- Identity of a callback invoked during change dispatch: either a
registered observer (by identity) or the built-in default `on_change`
hook. -/
inductive CB where
  | registered (id : Nat)
  | defaultHook
deriving DecidableEq, Repr

/-- The ChangeEvent handed to every callback: the keyword arguments
`dict(before=document, after=document_after, changes=params)` built once
in `_on_did_change`. -/
structure ChangeEvent where
  before : TextDocumentItem
  after : TextDocumentItem
  changes : DidChangeTextDocumentParams

/-- The observable state of an `LspServer`: the document store and the
per-uri observer sets (`defaultdict(set)`, absent key = empty set). -/
structure LspServer where
  documents : DocStore
  change_callbacks : DocumentUri → Finset Nat

/-- The server constructed by `__init__`: empty store, no observers. -/
def LspServer.init : LspServer :=
  { documents := [], change_callbacks := fun _ => ∅ }

/-- Embeds `register_change_callback`: add `cb` to the observer set for `uri`. -/
def register_change_callback (s : LspServer) (cb : Nat) (uri : DocumentUri) : LspServer :=
  { s with change_callbacks := fun u =>
      if u = uri then insert cb (s.change_callbacks u) else s.change_callbacks u }

/-- Embeds `on_did_open`: store (insert or overwrite) the opened item. -/
def on_did_open (s : LspServer) (params : DidOpenTextDocumentParams) : LspServer :=
  { s with documents := setDoc s.documents params.textDocument.uri params.textDocument }

/-- Outcome of the `textDocument/didChange` handler: either the uri was
never opened (the handler logs the error and discards the notification),
or the change succeeded, producing the single ChangeEvent and the list of
callback invocations awaited by the handler (each paired with the event
it received). -/
inductive ChangeOutcome where
  | unknownDocument
  | ok (event : ChangeEvent) (invocations : List (CB × ChangeEvent))

/-- Embeds `_on_did_change`: look the document up (absent ⇒ log-and-discard),
fold the content changes over its text left to right, store the new
record carrying the notification's declared version, then invoke every
registered observer plus the default `on_change` hook with the same
before/after pair.  The Python set iteration is modelled by iterating
the observer identities in sorted order. -/
def on_did_change (s : LspServer) (params : DidChangeTextDocumentParams) :
    LspServer × ChangeOutcome :=
  match getDoc s.documents params.textDocument.uri with
  | none => (s, ChangeOutcome.unknownDocument)
  | some document =>
    let text := params.contentChanges.foldl (fun t c => c.apply t) document.text
    let document_after : TextDocumentItem :=
      { document with version := params.textDocument.version, text := text }
    let s' := { s with
      documents := setDoc s.documents params.textDocument.uri document_after }
    let event : ChangeEvent :=
      { before := document, after := document_after, changes := params }
    let invocations :=
      ((s.change_callbacks params.textDocument.uri).sort (· ≤ ·)).map
        (fun id => (CB.registered id, event)) ++ [(CB.defaultHook, event)]
    (s', ChangeOutcome.ok event invocations)

/-- Embeds `on_did_save`: a no-op (`pass`). -/
def on_did_save (s : LspServer) (_params : DidSaveTextDocumentParams) : LspServer :=
  s

/-- Embeds `on_did_close`: a no-op (`pass`). -/
def on_did_close (s : LspServer) (_params : DidCloseTextDocumentParams) : LspServer :=
  s

/-- Errors raised by the outbound edit helpers: the `assert` in
`apply_insert_text` (a missing version) and the `TypeError` in
`apply_workspace_edit` (malformed payload). -/
inductive LspError where
  | missingVersion
  | typeMismatch
deriving DecidableEq, Repr

/-- A request sent over the RPC channel by the helpers below. -/
inductive SentRequest where
  | applyEdit (params : ApplyWorkspaceEditParams)
  | configuration (params : ConfigurationParams)
deriving DecidableEq, Repr

/-- The payload handed to `apply_workspace_edit`: the Python `isinstance`
check distinguishes a well-typed `ApplyWorkspaceEditParams` from any
other object. -/
inductive WorkspaceEditPayload where
  | wellFormed (params : ApplyWorkspaceEditParams)
  | malformed

/-- Embeds `apply_workspace_edit`: a well-formed payload is sent as a single
`workspace/applyEdit` request and the editor's typed response is
returned; anything else raises `TypeError` before any network call.
The RPC channel is the function `respond`; the second component lists
the requests sent. -/
def apply_workspace_edit (payload : WorkspaceEditPayload)
    (respond : ApplyWorkspaceEditParams → ApplyWorkspaceEditResponse) :
    Except LspError ApplyWorkspaceEditResponse × List SentRequest :=
  match payload with
  | WorkspaceEditPayload.wellFormed params =>
      (Except.ok (respond params), [SentRequest.applyEdit params])
  | WorkspaceEditPayload.malformed =>
      (Except.error LspError.typeMismatch, [])

/-- Embeds `apply_insert_text`: assert the version is not `None`, build a
zero-width-range (pure insertion) edit at `position` bound to
`(uri, version)`, and delegate to `apply_workspace_edit`.  The Python
parameter `version: int = 0` may hold `None` only when a caller passes
it explicitly, hence `Option Int`. -/
def apply_insert_text (uri : DocumentUri) (position : Position) (text : String)
    (version : Option Int)
    (respond : ApplyWorkspaceEditParams → ApplyWorkspaceEditResponse) :
    Except LspError ApplyWorkspaceEditResponse × List SentRequest :=
  match version with
  | none => (Except.error LspError.missingVersion, [])
  | some v =>
    let textDocument : TextDocumentIdentifier := { uri := uri, version := v }
    let params : ApplyWorkspaceEditParams :=
      { edit := { documentChanges := [
          { textDocument := textDocument,
            edits := [ { range := { start := position, endPos := position },
                         newText := text } ] } ] } }
    apply_workspace_edit (WorkspaceEditPayload.wellFormed params) respond

/-- A call of `apply_insert_text` with the `version` argument omitted:
the Python signature defaults it to `0`. -/
def apply_insert_text_omitted (uri : DocumentUri) (position : Position) (text : String)
    (respond : ApplyWorkspaceEditParams → ApplyWorkspaceEditResponse) :
    Except LspError ApplyWorkspaceEditResponse × List SentRequest :=
  apply_insert_text uri position text (some 0) respond

/-- Embeds `get_workspace_configuration`: build a `ConfigurationParams` holding
exactly one `ConfigurationItem` from the two arguments and send it as a
single `workspace/configuration` request; the response type is arbitrary
(`list[dict[str, Any]]` in Python), hence the polymorphic channel. -/
def get_workspace_configuration {α : Type} (sec : Option String)
    (scopeUri : Option DocumentUri) (respond : ConfigurationParams → α) :
    α × List SentRequest :=
  let params : ConfigurationParams :=
    { items := [ { «section» := sec, scopeUri := scopeUri } ] }
  (respond params, [SentRequest.configuration params])

/-! ### Store lemmas -/

theorem getDoc_eq_none_of_not_hasKey (s : DocStore) (uri : DocumentUri)
    (h : hasKey s uri = false) : getDoc s uri = none := by
  induction s with
  | nil => rfl
  | cons p rest ih =>
    obtain ⟨u, item⟩ := p
    simp only [hasKey, List.any_cons, Bool.or_eq_false_iff, decide_eq_false_iff_not] at h
    simp only [getDoc, if_neg h.1]
    exact ih (by simpa [hasKey] using h.2)

theorem getDoc_append_right (s t : DocStore) (uri : DocumentUri)
    (h : getDoc s uri = none) : getDoc (s ++ t) uri = getDoc t uri := by
  induction s with
  | nil => rfl
  | cons p rest ih =>
    obtain ⟨u, item⟩ := p
    simp only [getDoc] at h
    by_cases hu : u = uri
    · simp [hu] at h
    · simp only [List.cons_append, getDoc, if_neg hu]
      exact ih (by simpa [if_neg hu] using h)

theorem getDoc_replace_of_hasKey (s : DocStore) (uri : DocumentUri)
    (item : TextDocumentItem) (h : hasKey s uri = true) :
    getDoc (s.map fun p => if p.1 = uri then (uri, item) else p) uri = some item := by
  induction s with
  | nil => simp [hasKey] at h
  | cons p rest ih =>
    obtain ⟨u, it⟩ := p
    rw [List.map_cons]
    by_cases hu : u = uri
    · have hhead : (if (u, it).1 = uri then (uri, item) else (u, it)) = (uri, item) :=
        if_pos hu
      rw [hhead]
      simp [getDoc]
    · have hhead : (if (u, it).1 = uri then (uri, item) else (u, it)) = (u, it) :=
        if_neg hu
      rw [hhead]
      simp only [getDoc, if_neg hu]
      apply ih
      simp only [hasKey, List.any_cons, Bool.or_eq_true, decide_eq_true_eq] at h
      rcases h with h | h
      · exact absurd h hu
      · simpa [hasKey] using h

theorem getDoc_setDoc_self (s : DocStore) (uri : DocumentUri) (item : TextDocumentItem) :
    getDoc (setDoc s uri item) uri = some item := by
  unfold setDoc
  by_cases h : hasKey s uri
  · rw [if_pos h]
    exact getDoc_replace_of_hasKey s uri item h
  · rw [if_neg h]
    rw [getDoc_append_right s _ uri
      (getDoc_eq_none_of_not_hasKey s uri (Bool.of_not_eq_true h))]
    simp [getDoc]

theorem mem_keys_iff_hasKey (s : DocStore) (uri : DocumentUri) :
    uri ∈ keys s ↔ hasKey s uri = true := by
  simp only [keys, hasKey, List.mem_map, List.any_eq_true, decide_eq_true_eq]

theorem keys_setDoc (s : DocStore) (uri : DocumentUri) (item : TextDocumentItem) :
    keys (setDoc s uri item) = if hasKey s uri then keys s else keys s ++ [uri] := by
  unfold setDoc
  by_cases h : hasKey s uri
  · rw [if_pos h, if_pos h]
    simp only [keys, List.map_map]
    congr 1
    funext p
    by_cases hp : p.1 = uri <;> simp [hp]
  · rw [if_neg h, if_neg h]
    simp [keys]

theorem keys_nodup_setDoc (s : DocStore) (uri : DocumentUri) (item : TextDocumentItem)
    (h : (keys s).Nodup) : (keys (setDoc s uri item)).Nodup := by
  rw [keys_setDoc]
  by_cases hk : hasKey s uri
  · rwa [if_pos hk]
  · rw [if_neg hk]
    rw [List.nodup_append]
    refine ⟨h, List.nodup_singleton uri, ?_⟩
    intro a ha hb
    rw [List.mem_singleton] at hb
    subst hb
    exact hk ((mem_keys_iff_hasKey s a).mp ha)

/-! ### Dispatch lemmas -/

theorem countP_registered_invocations (l : List Nat) (event : ChangeEvent) (id : Nat)
    (hl : l.Nodup) :
    ((l.map fun i => ((CB.registered i : CB), event)) ++ [(CB.defaultHook, event)]).countP
        (fun inv => decide (inv.1 = CB.registered id)) = if id ∈ l then 1 else 0 := by
  induction l with
  | nil => simp [List.countP_cons]
  | cons a rest ih =>
    obtain ⟨ha, hrest⟩ := List.nodup_cons.mp hl
    rw [List.map_cons, List.cons_append, List.countP_cons, ih hrest]
    by_cases hid : a = id
    · subst hid
      simp [ha]
    · simp [hid, Ne.symm hid, List.mem_cons]

theorem countP_defaultHook_invocations (l : List Nat) (event : ChangeEvent) :
    ((l.map fun i => ((CB.registered i : CB), event)) ++ [(CB.defaultHook, event)]).countP
        (fun inv => decide (inv.1 = CB.defaultHook)) = 1 := by
  induction l with
  | nil => simp [List.countP_cons]
  | cons a rest ih =>
    rw [List.map_cons, List.cons_append, List.countP_cons, ih]
    simp

/-- Core description of a successful `_on_did_change`: the single event
produced, the new store, and the callback invocations. -/
theorem on_did_change_found (s : LspServer) (params : DidChangeTextDocumentParams)
    (document : TextDocumentItem)
    (h : getDoc s.documents params.textDocument.uri = some document) :
    ∃ event invocations,
      (on_did_change s params).2 = ChangeOutcome.ok event invocations ∧
      event.before = document ∧
      event.after = { document with
        version := params.textDocument.version,
        text := params.contentChanges.foldl (fun t c => c.apply t) document.text } ∧
      event.changes = params ∧
      (on_did_change s params).1.documents =
        setDoc s.documents params.textDocument.uri event.after ∧
      (on_did_change s params).1.change_callbacks = s.change_callbacks ∧
      (∀ inv ∈ invocations, inv.2 = event) ∧
      (∀ id : Nat, invocations.countP (fun inv => decide (inv.1 = CB.registered id)) =
        if id ∈ s.change_callbacks params.textDocument.uri then 1 else 0) ∧
      invocations.countP (fun inv => decide (inv.1 = CB.defaultHook)) = 1 := by
  unfold on_did_change
  rw [h]
  refine ⟨_, _, rfl, rfl, rfl, rfl, rfl, rfl, ?_, ?_, ?_⟩
  · intro inv hinv
    rcases List.mem_append.mp hinv with h1 | h1
    · obtain ⟨i, _, rfl⟩ := List.mem_map.mp h1
      rfl
    · rw [List.mem_singleton] at h1
      subst h1
      rfl
  · intro id
    rw [countP_registered_invocations _ _ _ (Finset.sort_nodup _ _)]
    simp [Finset.mem_sort]
  · exact countP_defaultHook_invocations _ _

/-! ### Concrete instances used by the witnesses -/

/-- A concrete document record. -/
def sampleDoc : TextDocumentItem :=
  { uri := "file:///a", languageId := some "python", version := 1, text := "ab" }

/-- A server that has handled `didOpen` for `sampleDoc`. -/
def sampleServer : LspServer :=
  on_did_open LspServer.init { textDocument := sampleDoc }

/-- A change notification at version 2 with two edits: prepend `X`, then
append `Y` to the text produced by the first edit. -/
def sampleChange : DidChangeTextDocumentParams :=
  { textDocument := { uri := "file:///a", version := 2 },
    contentChanges :=
      [ { apply := fun t => "X" ++ t }, { apply := fun t => t ++ "Y" } ] }

/-- A document opened at version 5. -/
def staleDoc : TextDocumentItem :=
  { uri := "file:///b", languageId := none, version := 5, text := "ab" }

/-- A server that has handled `didOpen` for `staleDoc`. -/
def staleServer : LspServer :=
  on_did_open LspServer.init { textDocument := staleDoc }

/-- A non-no-op change notification declaring version 3, lower than the
stored version 5. -/
def staleChange : DidChangeTextDocumentParams :=
  { textDocument := { uri := "file:///b", version := 3 },
    contentChanges := [ { apply := fun t => t ++ "c" } ] }

/-! ### Claim theorems -/

/-- Claim C1: for every opened document and every change notification for
it, `_on_did_change` applies the notification's edits left to right, each
edit transforming the text produced by the previous one starting from the
currently stored text (a left fold), and stores a record whose text is
that fold's result and whose version is exactly the notification's
declared version (uri and languageId carried over); an empty edit list
leaves the text unchanged (`foldl` over `[]`) but still sets the stored
version. -/
theorem didChange_folds_edits_and_stores_declared_version (s : LspServer)
    (params : DidChangeTextDocumentParams) (document : TextDocumentItem)
    (h : getDoc s.documents params.textDocument.uri = some document) :
    getDoc (on_did_change s params).1.documents params.textDocument.uri =
      some { document with
        version := params.textDocument.version,
        text := params.contentChanges.foldl (fun t c => c.apply t) document.text } := by
  obtain ⟨event, invocations, _, _, hafter, _, hdocs, _, _, _, _⟩ :=
    on_did_change_found s params document h
  rw [hdocs, getDoc_setDoc_self, hafter]

/-- Witness for C1: opening `"ab"` at version 1 and applying the edits
(prepend `X`, then append `Y`) under declared version 2 stores the record
with text `"XabY"` and version 2. -/
theorem didChange_folds_edits_and_stores_declared_version_witness :
    getDoc (on_did_change sampleServer sampleChange).1.documents "file:///a" =
      some { uri := "file:///a", languageId := some "python", version := 2,
             text := "XabY" } :=
  didChange_folds_edits_and_stores_declared_version sampleServer sampleChange
    sampleDoc rfl

/-- Claim C3: a change notification for a uri never opened makes
`_on_did_change` signal the unknown document (log-and-discard) and return
with the server state — store and observer registry — completely
unchanged and with no callback invocations. -/
theorem didChange_unknown_document_leaves_store_unchanged (s : LspServer)
    (params : DidChangeTextDocumentParams)
    (h : getDoc s.documents params.textDocument.uri = none) :
    on_did_change s params = (s, ChangeOutcome.unknownDocument) := by
  unfold on_did_change
  rw [h]

/-- Witness for C3: a change for an unopened uri on the freshly
constructed server is discarded with the state unchanged. -/
theorem didChange_unknown_document_leaves_store_unchanged_witness :
    on_did_change LspServer.init
        { textDocument := { uri := "file:///nope", version := 1 },
          contentChanges := [] } =
      (LspServer.init, ChangeOutcome.unknownDocument) :=
  didChange_unknown_document_leaves_store_unchanged LspServer.init
    { textDocument := { uri := "file:///nope", version := 1 },
      contentChanges := [] } rfl

/-- Claim C9: the `didSave` and `didClose` handlers are no-ops (`pass`):
for every server state and every save or close notification the entire
state — in particular every stored record with its uri, version and
text — is left unchanged, so closing does not purge the record. -/
theorem save_and_close_leave_store_unchanged (s : LspServer)
    (ps : DidSaveTextDocumentParams) (pc : DidCloseTextDocumentParams) :
    on_did_save s ps = s ∧ on_did_close s pc = s :=
  ⟨rfl, rfl⟩

/-- Counterexample to claim C4 as stated: after opening a document at
version 5, a change notification declaring version 3 with a genuine edit
(text `"ab"` becomes `"abc"`, so not a no-op) is stored as-is — the
stored version drops from 5 to 3, so versions do not strictly increase
across successive stored records for every sequence of operations. -/
theorem version_decreases_on_lower_declared_version :
    (getDoc staleServer.documents "file:///b").map TextDocumentItem.version =
      some 5 ∧
    getDoc (on_did_change staleServer staleChange).1.documents "file:///b" =
      some { uri := "file:///b", languageId := none, version := 3,
             text := "abc" } ∧
    ¬ ((5 : Int) < 3 ∨ ((5 : Int) = 3 ∧ "ab" = "abc")) := by
  refine ⟨rfl, rfl, by decide⟩

/-- Claim C4 (amended): the store, being written only through `setDoc`,
never holds two records for the same uri (keys stay duplicate-free under
`didOpen` and `didChange`); and the stored version always equals the most
recently declared one, so versions strictly increase across successive
records whenever each change notification declares a version greater than
the stored one — the handler itself does not enforce monotonicity. -/
theorem store_keys_nodup_and_version_increases_when_declared_higher
    (s : LspServer) (op : DidOpenTextDocumentParams)
    (params : DidChangeTextDocumentParams) (document : TextDocumentItem)
    (hnd : (keys s.documents).Nodup)
    (h : getDoc s.documents params.textDocument.uri = some document)
    (hv : document.version < params.textDocument.version) :
    (keys (on_did_open s op).documents).Nodup ∧
    (keys (on_did_change s params).1.documents).Nodup ∧
    ∃ after,
      getDoc (on_did_change s params).1.documents params.textDocument.uri =
        some after ∧
      document.version < after.version := by
  obtain ⟨event, invocations, _, _, hafter, _, hdocs, _, _, _, _⟩ :=
    on_did_change_found s params document h
  refine ⟨keys_nodup_setDoc _ _ _ hnd, ?_, ?_⟩
  · rw [hdocs]
    exact keys_nodup_setDoc _ _ _ hnd
  · refine ⟨event.after, ?_, ?_⟩
    · rw [hdocs, getDoc_setDoc_self]
    · rw [hafter]
      exact hv

/-- Witness for the amended C4: opening `"ab"` at version 1 and changing
it under declared version 2 keeps the store's keys duplicate-free and
strictly increases the stored version. -/
theorem store_keys_nodup_and_version_increases_witness :
    (keys (on_did_open sampleServer { textDocument := sampleDoc }).documents).Nodup ∧
    (keys (on_did_change sampleServer sampleChange).1.documents).Nodup ∧
    ∃ after,
      getDoc (on_did_change sampleServer sampleChange).1.documents "file:///a" =
        some after ∧
      (1 : Int) < after.version :=
  store_keys_nodup_and_version_increases_when_declared_higher sampleServer
    { textDocument := sampleDoc } sampleChange sampleDoc
    (by decide) rfl (by decide)

/-- Claim C5: a successful change produces exactly one ChangeEvent, whose
`before` is the record stored prior to the change and whose `after` is
the new record stored by the change, and the event is delivered once to
every observer registered for the uri plus exactly once to the built-in
default hook, every invocation receiving that identical event. -/
theorem didChange_delivers_one_event_to_all_observers (s : LspServer)
    (params : DidChangeTextDocumentParams) (document : TextDocumentItem)
    (h : getDoc s.documents params.textDocument.uri = some document) :
    ∃ event invocations,
      (on_did_change s params).2 = ChangeOutcome.ok event invocations ∧
      event.before = document ∧
      getDoc (on_did_change s params).1.documents params.textDocument.uri =
        some event.after ∧
      (∀ inv ∈ invocations, inv.2 = event) ∧
      (∀ id : Nat,
        invocations.countP (fun inv => decide (inv.1 = CB.registered id)) =
          if id ∈ s.change_callbacks params.textDocument.uri then 1 else 0) ∧
      invocations.countP (fun inv => decide (inv.1 = CB.defaultHook)) = 1 := by
  obtain ⟨event, invocations, h1, h2, _, _, hdocs, _, h7, h8, h9⟩ :=
    on_did_change_found s params document h
  refine ⟨event, invocations, h1, h2, ?_, h7, h8, h9⟩
  rw [hdocs, getDoc_setDoc_self]

/-- Witness for C5: on a server with observer 7 registered for the uri,
the sample change yields one event, delivered once to observer 7 and once
to the default hook. -/
theorem didChange_delivers_one_event_witness :
    ∃ event invocations,
      (on_did_change (register_change_callback sampleServer 7 "file:///a")
          sampleChange).2 = ChangeOutcome.ok event invocations ∧
      event.before = sampleDoc ∧
      getDoc (on_did_change (register_change_callback sampleServer 7 "file:///a")
          sampleChange).1.documents "file:///a" = some event.after ∧
      (∀ inv ∈ invocations, inv.2 = event) ∧
      (∀ id : Nat,
        invocations.countP (fun inv => decide (inv.1 = CB.registered id)) =
          if id ∈ (register_change_callback sampleServer 7 "file:///a").change_callbacks
              "file:///a" then 1 else 0) ∧
      invocations.countP (fun inv => decide (inv.1 = CB.defaultHook)) = 1 :=
  didChange_delivers_one_event_to_all_observers
    (register_change_callback sampleServer 7 "file:///a") sampleChange sampleDoc rfl

/-- Claim C6: observer registration is idempotent — registering the same
callback twice for the same uri yields exactly the same server state as
registering it once (set membership), and on any subsequent successful
change for that uri the callback is invoked exactly once. -/
theorem register_change_callback_idempotent (s : LspServer) (cb : Nat)
    (uri : DocumentUri) (params : DidChangeTextDocumentParams)
    (document : TextDocumentItem)
    (huri : params.textDocument.uri = uri)
    (h : getDoc s.documents uri = some document) :
    register_change_callback (register_change_callback s cb uri) cb uri =
      register_change_callback s cb uri ∧
    ∃ event invocations,
      (on_did_change
          (register_change_callback (register_change_callback s cb uri) cb uri)
          params).2 = ChangeOutcome.ok event invocations ∧
      invocations.countP (fun inv => decide (inv.1 = CB.registered cb)) = 1 := by
  constructor
  · cases s with
    | mk docs cbs =>
      simp only [register_change_callback]
      congr 1
      funext u
      by_cases hu : u = uri <;> simp [hu, Finset.insert_idem]
  · have h2 : getDoc (register_change_callback (register_change_callback s cb uri)
        cb uri).documents params.textDocument.uri = some document := by
      rw [huri]; exact h
    obtain ⟨event, invocations, h1, _, _, _, _, _, _, h8, _⟩ :=
      on_did_change_found _ params document h2
    refine ⟨event, invocations, h1, ?_⟩
    rw [h8 cb, if_pos]
    rw [huri]
    simp [register_change_callback]

/-- Witness for C6: registering observer 7 twice on the sample server
equals registering it once, and the sample change then invokes observer 7
exactly once. -/
theorem register_change_callback_idempotent_witness :
    register_change_callback (register_change_callback sampleServer 7 "file:///a")
        7 "file:///a" = register_change_callback sampleServer 7 "file:///a" ∧
    ∃ event invocations,
      (on_did_change
          (register_change_callback
            (register_change_callback sampleServer 7 "file:///a") 7 "file:///a")
          sampleChange).2 = ChangeOutcome.ok event invocations ∧
      invocations.countP (fun inv => decide (inv.1 = CB.registered 7)) = 1 :=
  register_change_callback_idempotent sampleServer 7 "file:///a" sampleChange
    sampleDoc rfl rfl

/-- Claim C2 (code bug, evaluation at the failing input): calling the
insert-text operation with the version argument omitted does NOT fail
with a missing-version error — the Python default `version: int = 0`
satisfies the guard `assert version is not None`, so the handler builds a
version-0 edit and sends exactly one `workspace/applyEdit` request over
the RPC channel, contradicting both the claim and the intent of the
assert message (`"version must be given, or we get no edit."`).  Only an
explicitly passed `None` trips the guard. -/
theorem insert_text_with_omitted_version_sends_request :
    (apply_insert_text_omitted "file:///a" { line := 0, character := 0 } "x"
        (fun _ => { applied := true, failureReason := none })) =
      (Except.ok { applied := true, failureReason := none },
       [SentRequest.applyEdit
         { edit := { documentChanges :=
             [ { textDocument := { uri := "file:///a", version := 0 },
                 edits := [ { range := { start := { line := 0, character := 0 },
                                         endPos := { line := 0, character := 0 } },
                              newText := "x" } ] } ] } }]) ∧
    (apply_insert_text "file:///a" { line := 0, character := 0 } "x" none
        (fun _ => { applied := true, failureReason := none })) =
      (Except.error LspError.missingVersion, []) :=
  ⟨rfl, rfl⟩

/-- Claim C7: `apply_workspace_edit` given a payload that is not a
well-formed `ApplyWorkspaceEditParams` raises the type mismatch without
sending anything over the RPC channel; given a well-formed payload it
sends exactly one `workspace/applyEdit` request carrying that payload and
returns the editor's typed applied-edit response to the caller. -/
theorem apply_workspace_edit_rejects_malformed_or_sends_once
    (respond : ApplyWorkspaceEditParams → ApplyWorkspaceEditResponse) :
    apply_workspace_edit WorkspaceEditPayload.malformed respond =
      (Except.error LspError.typeMismatch, []) ∧
    ∀ params : ApplyWorkspaceEditParams,
      apply_workspace_edit (WorkspaceEditPayload.wellFormed params) respond =
        (Except.ok (respond params), [SentRequest.applyEdit params]) :=
  ⟨rfl, fun _ => rfl⟩

/-- Claim C10: every call of `get_workspace_configuration` sends exactly
one `workspace/configuration` request whose `items` array holds exactly
one `ConfigurationItem`, built from the single section and scope
arguments supplied, and returns the channel's response for exactly that
query. -/
theorem get_workspace_configuration_sends_single_item {α : Type}
    (sec : Option String) (scopeUri : Option DocumentUri)
    (respond : ConfigurationParams → α) :
    (get_workspace_configuration sec scopeUri respond).2 =
      [SentRequest.configuration
        { items := [ { «section» := sec, scopeUri := scopeUri } ] }] ∧
    (get_workspace_configuration sec scopeUri respond).1 =
      respond { items := [ { «section» := sec, scopeUri := scopeUri } ] } :=
  ⟨rfl, rfl⟩

end Rift
